import Mathlib

/-!
Shallow embedding of the QueryStore service (Express+MongoDB variant in
`src/server.js` and the Cloudflare D1/Hono variant in `src/unnamed/part_000`,
first document), together with proofs about the query-management and
access-control contract described in the specification.

JSON response bodies are modelled by an inductive `JVal` so that statements
about which fields a response contains are meaningful.
-/

/-- A JSON value, used to model HTTP response bodies. -/
inductive JVal where
  | str : String → JVal
  | num : Nat → JVal
  | bool : Bool → JVal
  | null : JVal
  | arr : List JVal → JVal
  | obj : List (String × JVal) → JVal

/-- The keys of a JSON object body (empty for non-objects). -/
def JVal.keys : JVal → List String
  | .obj kvs => kvs.map Prod.fst
  | _ => []

/-- An HTTP response: status code plus JSON body. -/
structure HttpResponse where
  status : Nat
  body : JVal

/-- A response whose body is `{ message: m }`, the shape used by the handlers
for errors and acknowledgements. -/
def msgResponse (status : Nat) (m : String) : HttpResponse :=
  ⟨status, .obj [("message", .str m)]⟩

/-- JavaScript truthiness of a possibly-missing string value: `undefined`,
`null` and the empty string are falsy (`!title` in the handlers). -/
def jsFalsy : Option String → Bool
  | none => true
  | some s => s == ""

/-- JavaScript truthiness of a nullable string field such as `query.shareId`:
truthy iff present and non-empty. -/
def optStrTruthy : Option String → Bool
  | none => false
  | some s => s != ""

/-- JavaScript `String.prototype.trim`: strip leading and trailing
whitespace. -/
def jsTrim (s : String) : String :=
  String.mk (((s.data.dropWhile Char.isWhitespace).reverse.dropWhile
    Char.isWhitespace).reverse)

/-- JavaScript `String.prototype.toLowerCase` (ASCII case fold, which is all
the handlers rely on). -/
def jsToLower (s : String) : String :=
  String.mk (s.data.map Char.toLower)

/-- Helper for `split(',')`: accumulate characters until a comma. -/
def splitOnCommaAux : List Char → List Char → List String
  | [], acc => [String.mk acc.reverse]
  | c :: cs, acc =>
      if c == ',' then String.mk acc.reverse :: splitOnCommaAux cs []
      else splitOnCommaAux cs (c :: acc)

/-- JavaScript `String.prototype.split(',')`. -/
def splitOnComma (s : String) : List String :=
  splitOnCommaAux s.data []

/-- Tag normalization as written in every backend variant:
`tags.map(t => t.trim().toLowerCase()).filter(t => t)`
(`src/server.js` lines 179 and 217, `src/unnamed/part_000` lines 148 and 192). -/
def normalizeTags (ts : List String) : List String :=
  (ts.map (fun t => jsToLower (jsTrim t))).filter (fun t => t != "")

/-- `tags ? tags.map(tag => tag.trim().toLowerCase()).filter(tag => tag) : []`:
normalization applied to a possibly-missing tag list. -/
def processTags : Option (List String) → List String
  | none => []
  | some ts => normalizeTags ts

/-- Modelled from the spec: the normalization the specification ascribes to
tags before storage — each entry trimmed and lowercased and empty entries
dropped. Kept separate from `normalizeTags` (which embeds the source) so the
two can be compared. -/
def specNormalizeTags (ts : List String) : List String :=
  (ts.map (fun t => jsToLower (jsTrim t))).filter (fun t => t != "")

section MongoModel

/-- A query document as stored by the Mongoose model `Query` in
`src/server.js` (`_id`, `user`, `title`, `text`, `tags`, `isPublic`,
`shareId` (sparse, so possibly absent), `createdAt`). Ids and timestamps are
modelled as naturals. -/
structure MQuery where
  qid : Nat
  user : Nat
  title : String
  text : String
  tags : List String
  isPublic : Bool
  shareId : Option String
  createdAt : Nat
deriving DecidableEq, Repr

/-- The MongoDB `queries` collection. -/
abbrev MStore := List MQuery

/-- The ids of all stored queries. -/
def mIds (st : MStore) : List Nat := st.map (fun q => q.qid)

/-- `Query.findOne({_id: qid, user: uid})`: first document matching both the
id and the owner. -/
def mFindOne (st : MStore) (qid uid : Nat) : Option MQuery :=
  st.find? (fun q => q.qid == qid && q.user == uid)

/-- Replace the first element satisfying `p` by its image under `f`
(the effect of Mongoose `findOneAndUpdate` / `doc.save()` on the collection). -/
def updateFirst (p : MQuery → Bool) (f : MQuery → MQuery) : MStore → MStore
  | [] => []
  | q :: rest => if p q then f q :: rest else q :: updateFirst p f rest

/-- Remove the first element satisfying `p` (`findOneAndDelete`). -/
def removeFirst (p : MQuery → Bool) : MStore → MStore
  | [] => []
  | q :: rest => if p q then rest else q :: removeFirst p rest

/-- JSON serialization of a stored query document, as `res.json(query)`
produces it (the sparse `shareId` key is present only when set). -/
def mQueryJson (q : MQuery) : JVal :=
  .obj ([("_id", .num q.qid),
         ("title", .str q.title),
         ("text", .str q.text),
         ("tags", .arr (q.tags.map JVal.str)),
         ("user", .num q.user),
         ("isPublic", .bool q.isPublic),
         ("createdAt", .num q.createdAt)] ++
        (match q.shareId with
         | some s => [("shareId", JVal.str s)]
         | none => []))

/-- Insert into a list kept in descending order of `key`
(the effect of a `.sort({createdAt: -1})` / `ORDER BY created_at DESC`). -/
def insertDescBy {α : Type} (key : α → Nat) (x : α) : List α → List α
  | [] => [x]
  | r :: rest =>
      if key r ≤ key x then x :: r :: rest
      else r :: insertDescBy key x rest

/-- Sort a list in descending order of `key` (insertion sort). -/
def sortDescBy {α : Type} (key : α → Nat) : List α → List α
  | [] => []
  | x :: rest => insertDescBy key x (sortDescBy key rest)

/-- `GET /api/queries` (`src/server.js` lines 143-151):
`Query.find({user: uid}).sort({createdAt: -1})`. -/
def listQueries (st : MStore) (uid : Nat) : List MQuery :=
  sortDescBy (fun q => q.createdAt) (st.filter (fun q => q.user == uid))

/-- `POST /api/queries` (`src/server.js` lines 171-192). `newId`/`now` stand
for the id and timestamp MongoDB assigns. Returns the response and the new
collection state. -/
def createQuery (st : MStore) (uid newId now : Nat)
    (title text : Option String) (tags : Option (List String)) :
    HttpResponse × MStore :=
  if jsFalsy title || jsFalsy text then
    (msgResponse 400 "Title and text are required.", st)
  else
    let q : MQuery :=
      { qid := newId, user := uid, title := title.getD "", text := text.getD "",
        tags := processTags tags, isPublic := false, shareId := none,
        createdAt := now }
    (⟨201, mQueryJson q⟩, st ++ [q])

/-- A `PUT /api/queries/:id` request body. The handler destructures only
`title`, `text` and `tags`; the remaining fields model a client that attempts
to supply owner/share/timestamp values. -/
structure UpdateBody where
  title : Option String
  text : Option String
  tags : Option (List String)
  bodyUser : Option Nat
  bodyCreatedAt : Option Nat
  bodyIsPublic : Option Bool
  bodyShareId : Option String
deriving DecidableEq, Repr

/-- The document transformation applied by
`findOneAndUpdate({_id, user}, {title, text, tags: processedTags})`:
only `title`, `text` and `tags` are set. -/
def applyUpdate (body : UpdateBody) (q : MQuery) : MQuery :=
  { q with title := body.title.getD "", text := body.text.getD "",
           tags := processTags body.tags }

/-- `PUT /api/queries/:id` (`src/server.js` lines 209-233). -/
def updateQuery (st : MStore) (uid qid : Nat) (body : UpdateBody) :
    HttpResponse × MStore :=
  if jsFalsy body.title || jsFalsy body.text then
    (msgResponse 400 "Title and text are required.", st)
  else
    match mFindOne st qid uid with
    | none => (msgResponse 404 "Query not found or user not authorized.", st)
    | some q =>
        (⟨200, mQueryJson (applyUpdate body q)⟩,
         updateFirst (fun r => r.qid == qid && r.user == uid)
           (applyUpdate body) st)

/-- `DELETE /api/queries/:id` (`src/server.js` lines 195-206). -/
def deleteQuery (st : MStore) (uid qid : Nat) : HttpResponse × MStore :=
  match mFindOne st qid uid with
  | none => (msgResponse 404 "Query not found or user not authorized.", st)
  | some _ =>
      (msgResponse 200 "Query deleted successfully.",
       removeFirst (fun r => r.qid == qid && r.user == uid) st)

/-- `POST /api/queries/:id/share` (`src/server.js` lines 236-260).
`freshToken` stands for the `crypto.randomBytes(12).toString('hex')` value
that would be minted if needed. -/
def shareQuery (st : MStore) (uid qid : Nat) (freshToken : String) :
    HttpResponse × MStore :=
  match mFindOne st qid uid with
  | none => (msgResponse 404 "Query not found or user not authorized.", st)
  | some q =>
      if q.isPublic && optStrTruthy q.shareId then
        (⟨200, .obj [("shareId", .str (q.shareId.getD ""))]⟩, st)
      else
        (⟨200, .obj [("shareId", .str freshToken)]⟩,
         updateFirst (fun r => r.qid == qid && r.user == uid)
           (fun r => { r with shareId := some freshToken, isPublic := true }) st)

/-- `GET /api/public/queries/:shareId` (`src/server.js` lines 119-136):
`Query.findOne({shareId, isPublic: true})`, then a hand-built object with only
`title`, `text`, `tags`, `createdAt`. -/
def getPublicByShareId (st : MStore) (shareId : String) : HttpResponse :=
  match st.find? (fun q => q.shareId == some shareId && q.isPublic) with
  | none => msgResponse 404 "Shared query not found."
  | some q =>
      ⟨200, .obj [("title", .str q.title),
                  ("text", .str q.text),
                  ("tags", .arr (q.tags.map JVal.str)),
                  ("createdAt", .num q.createdAt)]⟩

end MongoModel

section LoginModel

/-- A user document as stored by the Mongoose `User` model
(`src/server.js` lines 26-31). -/
structure MUser where
  uid : Nat
  username : String
  passwordHash : String
deriving DecidableEq, Repr

/-- `User.findOne({username})`. -/
def findUser (users : List MUser) (uname : String) : Option MUser :=
  users.find? (fun u => u.username == uname)

/-- `POST /login` (`src/server.js` lines 76-115). `compare` models
`bcrypt.compare` and `issueToken` models `jwt.sign`, both external
collaborators; the handler is parametric in them. -/
def login (compare : String → String → Bool) (issueToken : MUser → String)
    (users : List MUser) (username password : Option String) : HttpResponse :=
  if jsFalsy username || jsFalsy password then
    msgResponse 400 "Username and password are required."
  else
    match findUser users (username.getD "") with
    | none => msgResponse 401 "Invalid credentials."
    | some u =>
        if compare (password.getD "") u.passwordHash then
          ⟨200, .obj [("token", .str (issueToken u)),
                      ("user", .obj [("username", .str u.username)])]⟩
        else msgResponse 401 "Invalid credentials."

end LoginModel

section D1Model

/-- A row of the `queries` table (`src/schema.sql` lines 9-18). -/
structure D1Query where
  id : Nat
  user_id : Nat
  title : String
  text : String
  is_public : Bool
  share_id : Option String
  created_at : Nat
deriving DecidableEq, Repr

/-- The relational store of the Cloudflare D1 variant: the `queries` table
and the `query_tags` table, whose rows are `(query_id, tag)` pairs with
`PRIMARY KEY (query_id, tag)` (`src/schema.sql` lines 21-26). -/
structure D1State where
  queries : List D1Query
  query_tags : List (Nat × String)
deriving DecidableEq, Repr

/-- Hono's default response for an uncaught exception in a handler. -/
def internalError : HttpResponse := ⟨500, .str "Internal Server Error"⟩

/-- The tag-insertion loop of `src/unnamed/part_000` (lines 149-151 and
193-195): one `INSERT INTO query_tags (query_id, tag)` per tag, with no
surrounding transaction. A row violating the `(query_id, tag)` primary key
makes the statement throw, aborting the loop; the rows already inserted
remain. Returns the (possibly partial) state and whether the loop finished. -/
def d1InsertTagsLoop (st : D1State) (qid : Nat) : List String → D1State × Bool
  | [] => (st, true)
  | t :: ts =>
      if st.query_tags.contains (qid, t) then (st, false)
      else d1InsertTagsLoop ⟨st.queries, st.query_tags ++ [(qid, t)]⟩ qid ts

/-- `POST /api/queries` in the D1 variant (`src/unnamed/part_000` lines
134-155): insert the query row (no title/text validation; a missing field
makes the bind throw before any write), then insert normalized tags one
statement at a time. -/
def d1Create (st : D1State) (uid newId now : Nat)
    (title text : Option String) (tags : Option (List String)) :
    HttpResponse × D1State :=
  match title, text with
  | some ti, some te =>
      let q : D1Query :=
        { id := newId, user_id := uid, title := ti, text := te,
          is_public := false, share_id := none, created_at := now }
      let st1 : D1State := ⟨st.queries ++ [q], st.query_tags⟩
      let created : HttpResponse :=
        ⟨201, .obj [("_id", .num newId), ("title", .str ti), ("text", .str te),
                    ("tags", match tags with
                             | some ts => .arr (ts.map JVal.str)
                             | none => .null)]⟩
      match tags with
      | some ts =>
          if ts.length > 0 then
            let r := d1InsertTagsLoop st1 newId (normalizeTags ts)
            (if r.2 then created else internalError, r.1)
          else (created, st1)
      | none => (created, st1)
  | _, _ => (internalError, st)

/-- `DELETE /api/queries/:id` in the D1 variant (`src/unnamed/part_000`
lines 157-172): `DELETE FROM queries WHERE id = ? AND user_id = ?`; 404 when
`changes === 0`. Tag rows of deleted queries go away via
`ON DELETE CASCADE` (`src/schema.sql` line 25). -/
def d1Delete (st : D1State) (uid qid : Nat) : HttpResponse × D1State :=
  let hit := st.queries.filter (fun q => q.id == qid && q.user_id == uid)
  if hit.isEmpty then
    (msgResponse 404 "Query not found or unauthorized.", st)
  else
    (msgResponse 200 "Query deleted successfully.",
     ⟨st.queries.filter (fun q => !(q.id == qid && q.user_id == uid)),
      st.query_tags.filter (fun p => !(hit.any (fun q => q.id == p.1)))⟩)

/-- `PUT /api/queries/:id` in the D1 variant (`src/unnamed/part_000` lines
174-199): update title/text scoped by owner (404 when no row changed), then
`DELETE FROM query_tags WHERE query_id = ?` and re-insert the normalized tags
one statement at a time — with no transaction around the three steps.
A missing `title`/`text` makes the bind throw before any write. -/
def d1Update (st : D1State) (uid qid : Nat)
    (title text : Option String) (tags : Option (List String)) :
    HttpResponse × D1State :=
  match title, text with
  | some ti, some te =>
      if st.queries.any (fun q => q.id == qid && q.user_id == uid) then
        let qs := st.queries.map (fun q =>
          if q.id == qid && q.user_id == uid then
            { q with title := ti, text := te }
          else q)
        let st1 : D1State := ⟨qs, st.query_tags.filter (fun p => !(p.1 == qid))⟩
        match tags with
        | some ts =>
            if ts.length > 0 then
              let r := d1InsertTagsLoop st1 qid (normalizeTags ts)
              (if r.2 then msgResponse 200 "Query updated successfully."
               else internalError, r.1)
            else (msgResponse 200 "Query updated successfully.", st1)
        | none => (msgResponse 200 "Query updated successfully.", st1)
      else (msgResponse 404 "Query not found or unauthorized.", st)
  | _, _ => (internalError, st)

/-- `POST /api/queries/:id/share` in the D1 variant (`src/unnamed/part_000`
lines 201-225): look up the row scoped by owner; if already public with a
share id, return it; otherwise `UPDATE queries SET share_id = ?,
is_public = 1 WHERE id = ?`. `freshId` stands for the randomly generated id. -/
def d1Share (st : D1State) (uid qid : Nat) (freshId : String) :
    HttpResponse × D1State :=
  match st.queries.find? (fun q => q.id == qid && q.user_id == uid) with
  | none => (msgResponse 404 "Query not found or unauthorized.", st)
  | some q =>
      if q.is_public && optStrTruthy q.share_id then
        (⟨200, .obj [("shareId", .str (q.share_id.getD ""))]⟩, st)
      else
        (⟨200, .obj [("shareId", .str freshId)]⟩,
         ⟨st.queries.map (fun r =>
            if r.id == qid then { r with share_id := some freshId, is_public := true }
            else r),
          st.query_tags⟩)

/-- `GROUP_CONCAT(t.tag)` over the `LEFT JOIN` with `query_tags`: SQL `NULL`
(modelled `none`) when the query has no tag rows. -/
def groupConcatTags (st : D1State) (qid : Nat) : Option String :=
  let ts := (st.query_tags.filter (fun p => p.1 == qid)).map Prod.snd
  if ts.isEmpty then none else some (String.intercalate "," ts)

/-- `q.tags ? q.tags.split(',') : []` (`src/unnamed/part_000` lines 71 and
112): the JSON tags field built from the `GROUP_CONCAT` column. -/
def jsTagsOfConcat : Option String → JVal
  | none => .arr []
  | some s => if s != "" then .arr ((splitOnComma s).map JVal.str) else .arr []

/-- One element of the `GET /api/queries` response in the D1 variant:
`{...q, _id: q.id, tags: [...]}` (`src/unnamed/part_000` lines 109-113). -/
structure D1ListItem where
  item_id : Nat
  user_id : Nat
  title : String
  text : String
  is_public : Bool
  share_id : Option String
  created_at : Nat
  tags : JVal

/-- `GET /api/queries` in the D1 variant (`src/unnamed/part_000` lines
95-116): owner-scoped rows joined with their tags, ordered by `created_at`
descending, each formatted with a tags array. -/
def d1ListQueries (st : D1State) (uid : Nat) : List D1ListItem :=
  (sortDescBy (fun q => q.created_at)
      (st.queries.filter (fun q => q.user_id == uid))).map
    (fun q =>
      { item_id := q.id, user_id := q.user_id, title := q.title,
        text := q.text, is_public := q.is_public, share_id := q.share_id,
        created_at := q.created_at,
        tags := jsTagsOfConcat (groupConcatTags st q.id) })

/-- `GET /api/public/queries/:shareId` in the D1 variant
(`src/unnamed/part_000` lines 52-74): row with matching `share_id` and
`is_public = 1`, shaped to `{title, text, tags, createdAt}`. -/
def d1GetPublic (st : D1State) (shareId : String) : HttpResponse :=
  match st.queries.find? (fun q => q.share_id == some shareId && q.is_public) with
  | none => msgResponse 404 "Shared query not found."
  | some q =>
      ⟨200, .obj [("title", .str q.title),
                  ("text", .str q.text),
                  ("tags", jsTagsOfConcat (groupConcatTags st q.id)),
                  ("createdAt", .num q.created_at)]⟩

/-- The states of the D1 store reachable from the empty database through the
exposed mutations (one constructor per operation of
`src/unnamed/part_000`). -/
inductive D1Reachable : D1State → Prop where
  | init : D1Reachable ⟨[], []⟩
  | step_create {st} (uid newId now : Nat) (title text : Option String)
      (tags : Option (List String)) : D1Reachable st →
      D1Reachable (d1Create st uid newId now title text tags).2
  | step_update {st} (uid qid : Nat) (title text : Option String)
      (tags : Option (List String)) : D1Reachable st →
      D1Reachable (d1Update st uid qid title text tags).2
  | step_delete {st} (uid qid : Nat) : D1Reachable st →
      D1Reachable (d1Delete st uid qid).2
  | step_share {st} (uid qid : Nat) (freshId : String) : D1Reachable st →
      D1Reachable (d1Share st uid qid freshId).2

/-- The share-state invariant of the data model: a stored query has a share
token exactly when it is public. -/
def ShareInv (st : D1State) : Prop :=
  ∀ q ∈ st.queries, (q.share_id.isSome ↔ q.is_public = true)

end D1Model

section Lemmas

theorem mem_insertDescBy {α : Type} (key : α → Nat) (x y : α) (l : List α) :
    y ∈ insertDescBy key x l ↔ y = x ∨ y ∈ l := by
  induction l with
  | nil => simp [insertDescBy]
  | cons r rest ih =>
      simp only [insertDescBy]
      split
      · simp [List.mem_cons]
      · simp only [List.mem_cons, ih]
        tauto

theorem mem_sortDescBy {α : Type} (key : α → Nat) (x : α) (l : List α) :
    x ∈ sortDescBy key l ↔ x ∈ l := by
  induction l with
  | nil => simp [sortDescBy]
  | cons r rest ih =>
      simp [sortDescBy, mem_insertDescBy, ih, List.mem_cons]

theorem mem_updateFirst_of_neg {p : MQuery → Bool} {f : MQuery → MQuery}
    {l : List MQuery} {r : MQuery} (hr : r ∈ l) (hp : p r = false) :
    r ∈ updateFirst p f l := by
  induction l with
  | nil => cases hr
  | cons a rest ih =>
      rcases List.mem_cons.1 hr with h | h
      · subst h
        simp [updateFirst, hp]
      · simp only [updateFirst]
        split
        · exact List.mem_cons_of_mem _ h
        · exact List.mem_cons_of_mem _ (ih h)

theorem find?_updateFirst (p : MQuery → Bool) (f : MQuery → MQuery)
    (hpf : ∀ x, p (f x) = p x) (l : List MQuery) :
    (updateFirst p f l).find? p = (l.find? p).map f := by
  induction l with
  | nil => simp [updateFirst]
  | cons a rest ih =>
      by_cases h : p a
      · rw [updateFirst, if_pos h, List.find?_cons_of_pos _ ((hpf a).trans h),
          List.find?_cons_of_pos _ h]
        rfl
      · rw [updateFirst, if_neg h, List.find?_cons_of_neg _ h,
          List.find?_cons_of_neg _ h, ih]

theorem mIds_nodup_inj {st : MStore} (h : (mIds st).Nodup) {q r : MQuery}
    (hq : q ∈ st) (hr : r ∈ st) (hid : q.qid = r.qid) : q = r :=
  List.inj_on_of_nodup_map h hq hr hid

theorem mFindOne_self {st : MStore} (h : (mIds st).Nodup) {q : MQuery}
    (hq : q ∈ st) : mFindOne st q.qid q.user = some q := by
  rcases hfind : mFindOne st q.qid q.user with _ | r
  · rw [mFindOne, List.find?_eq_none] at hfind
    exact absurd (by simp : (fun r => r.qid == q.qid && r.user == q.user) q = true)
      (by simpa using hfind q hq)
  · have hrmem := List.mem_of_find?_eq_some hfind
    have hrp := List.find?_some hfind
    simp only [Bool.and_eq_true, beq_iff_eq] at hrp
    have : r = q := mIds_nodup_inj h hrmem hq hrp.1
    rw [this]

theorem mFindOne_other_owner {st : MStore} (h : (mIds st).Nodup) {q : MQuery}
    {B : Nat} (hq : q ∈ st) (hB : B ≠ q.user) : mFindOne st q.qid B = none := by
  rw [mFindOne, List.find?_eq_none]
  intro r hr hrp
  simp only [Bool.and_eq_true, beq_iff_eq] at hrp
  have : r = q := mIds_nodup_inj h hr hq hrp.1
  exact hB (this ▸ hrp.2.symm)

theorem mFindOne_fresh {st : MStore} {qid uid : Nat}
    (h : ∀ r ∈ st, r.qid ≠ qid) : mFindOne st qid uid = none := by
  rw [mFindOne, List.find?_eq_none]
  intro r hr hrp
  simp only [Bool.and_eq_true, beq_iff_eq] at hrp
  exact h r hr hrp.1

theorem d1Ids_nodup_inj {st : D1State}
    (h : (st.queries.map (fun r => r.id)).Nodup) {q r : D1Query}
    (hq : q ∈ st.queries) (hr : r ∈ st.queries) (hid : q.id = r.id) : q = r :=
  List.inj_on_of_nodup_map h hq hr hid

theorem d1_filter_other_owner {st : D1State}
    (h : (st.queries.map (fun r => r.id)).Nodup) {dq : D1Query} {B : Nat}
    (hdq : dq ∈ st.queries) (hB : B ≠ dq.user_id) :
    st.queries.filter (fun q => q.id == dq.id && q.user_id == B) = [] := by
  rw [List.filter_eq_nil_iff]
  intro r hr hrp
  simp only [Bool.and_eq_true, beq_iff_eq] at hrp
  have : r = dq := d1Ids_nodup_inj h hr hdq hrp.1
  exact hB (this ▸ hrp.2.symm)

theorem d1_filter_fresh {st : D1State} {qid B : Nat}
    (h : ∀ r ∈ st.queries, r.id ≠ qid) :
    st.queries.filter (fun q => q.id == qid && q.user_id == B) = [] := by
  rw [List.filter_eq_nil_iff]
  intro r hr hrp
  simp only [Bool.and_eq_true, beq_iff_eq] at hrp
  exact h r hr hrp.1

theorem d1InsertTagsLoop_queries (st : D1State) (qid : Nat) (ts : List String) :
    (d1InsertTagsLoop st qid ts).1.queries = st.queries := by
  induction ts generalizing st with
  | nil => rfl
  | cons t ts ih =>
      simp only [d1InsertTagsLoop]
      split
      · rfl
      · exact ih _

theorem shareInv_d1Create (st : D1State) (uid newId now : Nat)
    (title text : Option String) (tags : Option (List String))
    (h : ShareInv st) : ShareInv (d1Create st uid newId now title text tags).2 := by
  rcases title with _ | ti
  · simpa [d1Create] using h
  rcases text with _ | te
  · simpa [d1Create] using h
  have hst1 : ShareInv ⟨st.queries ++
      [{ id := newId, user_id := uid, title := ti, text := te,
         is_public := false, share_id := none, created_at := now }],
      st.query_tags⟩ := by
    intro q hq
    rcases List.mem_append.1 hq with hq | hq
    · exact h q hq
    · simp only [List.mem_singleton] at hq
      subst hq
      simp
  rcases tags with _ | ts
  · simpa [d1Create] using hst1
  · by_cases hlen : ts.length > 0
    · intro q hq
      simp only [d1Create, if_pos hlen] at hq
      rw [d1InsertTagsLoop_queries] at hq
      exact hst1 q hq
    · intro q hq
      simp only [d1Create, if_neg hlen] at hq
      exact hst1 q hq

theorem shareInv_d1Update (st : D1State) (uid qid : Nat)
    (title text : Option String) (tags : Option (List String))
    (h : ShareInv st) : ShareInv (d1Update st uid qid title text tags).2 := by
  rcases title with _ | ti
  · simpa [d1Update] using h
  rcases text with _ | te
  · simpa [d1Update] using h
  by_cases hany : (st.queries.any (fun q => q.id == qid && q.user_id == uid)) = true
  · have hst1 : ShareInv ⟨st.queries.map (fun q =>
        if q.id == qid && q.user_id == uid then
          { q with title := ti, text := te }
        else q),
        st.query_tags.filter (fun p => !(p.1 == qid))⟩ := by
      intro q hq
      rcases List.mem_map.1 hq with ⟨r, hr, rfl⟩
      by_cases hc : (r.id == qid && r.user_id == uid) = true
      · simpa [hc] using h r hr
      · simpa [hc] using h r hr
    rcases tags with _ | ts
    · simpa [d1Update, hany] using hst1
    · by_cases hlen : ts.length > 0
      · intro q hq
        simp only [d1Update, hany, if_true, if_pos hlen] at hq
        rw [d1InsertTagsLoop_queries] at hq
        exact hst1 q hq
      · intro q hq
        simp only [d1Update, hany, if_true, if_neg hlen] at hq
        exact hst1 q hq
  · simpa [d1Update, hany] using h

theorem shareInv_d1Delete (st : D1State) (uid qid : Nat)
    (h : ShareInv st) : ShareInv (d1Delete st uid qid).2 := by
  by_cases he : (st.queries.filter (fun q => q.id == qid && q.user_id == uid)).isEmpty = true
  · simpa [d1Delete, he] using h
  · intro q hq
    simp only [d1Delete, he, if_false, Bool.false_eq_true] at hq
    exact h q (List.mem_filter.1 hq).1

theorem shareInv_d1Share (st : D1State) (uid qid : Nat) (freshId : String)
    (h : ShareInv st) : ShareInv (d1Share st uid qid freshId).2 := by
  rcases hfind : st.queries.find? (fun q => q.id == qid && q.user_id == uid) with _ | q
  · simpa [d1Share, hfind] using h
  · by_cases hc : (q.is_public && optStrTruthy q.share_id) = true
    · simpa [d1Share, hfind, hc] using h
    · intro r hr
      simp only [d1Share, hfind, hc, if_false, Bool.false_eq_true] at hr
      rcases List.mem_map.1 hr with ⟨r0, hr0, rfl⟩
      by_cases hid : (r0.id == qid) = true
      · simp [hid]
      · simpa [hid] using h r0 hr0

theorem d1Reachable_shareInv {st : D1State} (h : D1Reachable st) : ShareInv st := by
  induction h with
  | init => intro q hq; cases hq
  | step_create uid newId now title text tags _ ih =>
      exact shareInv_d1Create _ uid newId now title text tags ih
  | step_update uid qid title text tags _ ih =>
      exact shareInv_d1Update _ uid qid title text tags ih
  | step_delete uid qid _ ih => exact shareInv_d1Delete _ uid qid ih
  | step_share uid qid freshId _ ih => exact shareInv_d1Share _ uid qid freshId ih

theorem updateQuery_success {st : MStore} {owner : Nat} {q : MQuery}
    (body : UpdateBody)
    (hnod : (mIds st).Nodup) (hq : q ∈ st) (howner : q.user = owner)
    (ht : jsFalsy body.title = false) (hx : jsFalsy body.text = false) :
    updateQuery st owner q.qid body
      = (⟨200, mQueryJson (applyUpdate body q)⟩,
         updateFirst (fun r => r.qid == q.qid && r.user == owner)
           (applyUpdate body) st) ∧
    mFindOne (updateQuery st owner q.qid body).2 q.qid owner
      = some (applyUpdate body q) := by
  have hfind : mFindOne st q.qid owner = some q := howner ▸ mFindOne_self hnod hq
  have hf : (jsFalsy body.title || jsFalsy body.text) = false := by
    rw [ht, hx]
    rfl
  have hr : updateQuery st owner q.qid body
      = (⟨200, mQueryJson (applyUpdate body q)⟩,
         updateFirst (fun r => r.qid == q.qid && r.user == owner)
           (applyUpdate body) st) := by
    simp [updateQuery, hf, hfind]
  refine ⟨hr, ?_⟩
  rw [hr, mFindOne,
    find?_updateFirst (fun r => r.qid == q.qid && r.user == owner)
      (applyUpdate body) (fun x => rfl) st]
  rw [mFindOne] at hfind
  rw [hfind]
  rfl

theorem jsTagsOfConcat_isArr (o : Option String) :
    ∃ l, jsTagsOfConcat o = JVal.arr l := by
  rcases o with _ | s
  · exact ⟨[], rfl⟩
  · simp only [jsTagsOfConcat]
    split
    · exact ⟨_, rfl⟩
    · exact ⟨[], rfl⟩

theorem groupConcatTags_none {dst : D1State} {qid : Nat}
    (h : ∀ p ∈ dst.query_tags, p.1 ≠ qid) : groupConcatTags dst qid = none := by
  have he : dst.query_tags.filter (fun p => p.1 == qid) = [] := by
    rw [List.filter_eq_nil_iff]
    intro p hp hpq
    exact h p hp (by simpa using hpq)
  simp [groupConcatTags, he]

end Lemmas

/-- **C3.** Every reachable D1 store state satisfies the invariant that a
stored query's `share_id` is non-null exactly when `is_public` is true, and
each of the operations `create`, `update`, `delete`, `share` preserves the
invariant (`create` inserts the row non-public with a null `share_id`;
`share` sets `share_id` and `is_public = 1` in one statement). -/
theorem c3_share_state_invariant :
    (∀ (st : D1State) (uid newId now : Nat) (title text : Option String)
       (tags : Option (List String)), ShareInv st →
       ShareInv (d1Create st uid newId now title text tags).2) ∧
    (∀ (st : D1State) (uid qid : Nat) (title text : Option String)
       (tags : Option (List String)), ShareInv st →
       ShareInv (d1Update st uid qid title text tags).2) ∧
    (∀ (st : D1State) (uid qid : Nat), ShareInv st →
       ShareInv (d1Delete st uid qid).2) ∧
    (∀ (st : D1State) (uid qid : Nat) (freshId : String), ShareInv st →
       ShareInv (d1Share st uid qid freshId).2) ∧
    (∀ st : D1State, D1Reachable st → ShareInv st) :=
  ⟨fun st uid newId now title text tags h =>
      shareInv_d1Create st uid newId now title text tags h,
   fun st uid qid title text tags h =>
      shareInv_d1Update st uid qid title text tags h,
   fun st uid qid h => shareInv_d1Delete st uid qid h,
   fun st uid qid freshId h => shareInv_d1Share st uid qid freshId h,
   fun _ h => d1Reachable_shareInv h⟩

/-- Witness for C3: the invariant holds on the concrete state reached by
creating a query and then sharing it. -/
theorem c3_share_state_invariant_witness :
    ShareInv (d1Share (d1Create ⟨[], []⟩ 7 1 0 (some "t") (some "x") none).2
      7 1 "tok").2 :=
  c3_share_state_invariant.2.2.2.2 _
    (D1Reachable.step_share 7 1 "tok"
      (D1Reachable.step_create 7 1 0 (some "t") (some "x") none D1Reachable.init))

/-- **C4.** A successful `getPublicByShareToken` response contains exactly
the fields `{title, text, tags, createdAt}`, and no response of the public
endpoint ever contains an owner/id/share field — in both the Express+Mongo
handler and the D1 handler. -/
theorem c4_public_view_restricted (st : MStore) (dst : D1State) (tok : String) :
    ((getPublicByShareId st tok).status = 200 →
       (getPublicByShareId st tok).body.keys = ["title", "text", "tags", "createdAt"]) ∧
    "ownerId" ∉ (getPublicByShareId st tok).body.keys ∧
    "user" ∉ (getPublicByShareId st tok).body.keys ∧
    "id" ∉ (getPublicByShareId st tok).body.keys ∧
    "_id" ∉ (getPublicByShareId st tok).body.keys ∧
    "isPublic" ∉ (getPublicByShareId st tok).body.keys ∧
    "shareId" ∉ (getPublicByShareId st tok).body.keys ∧
    ((d1GetPublic dst tok).status = 200 →
       (d1GetPublic dst tok).body.keys = ["title", "text", "tags", "createdAt"]) ∧
    "user_id" ∉ (d1GetPublic dst tok).body.keys ∧
    "id" ∉ (d1GetPublic dst tok).body.keys ∧
    "_id" ∉ (d1GetPublic dst tok).body.keys ∧
    "is_public" ∉ (d1GetPublic dst tok).body.keys ∧
    "share_id" ∉ (d1GetPublic dst tok).body.keys := by
  rcases hf : st.find? (fun q => q.shareId == some tok && q.isPublic) with _ | q <;>
    rcases hg : dst.queries.find? (fun q => q.share_id == some tok && q.is_public)
      with _ | r <;>
    simp [getPublicByShareId, d1GetPublic, hf, hg, msgResponse, JVal.keys]

/-- Witness for C4: a concrete public lookup hit returns exactly the four
public fields. -/
theorem c4_public_view_restricted_witness :
    (getPublicByShareId [⟨1, 10, "t", "x", ["sql"], true, some "s1", 5⟩] "s1").body.keys
      = ["title", "text", "tags", "createdAt"] :=
  (c4_public_view_restricted [⟨1, 10, "t", "x", ["sql"], true, some "s1", 5⟩]
    ⟨[], []⟩ "s1").1 rfl

/-- **C9** (code bug). The D1 variant's mutations are not atomic: `create`
(and `update`) first write the query row, then insert tag rows one statement
at a time with no transaction. On input tags `[" SQL ", "sql", "", "Perf"]`
(the specification's own §8 example) normalization yields a duplicate, the
second `INSERT INTO query_tags` violates the `(query_id, tag)` primary key
and throws, and the handler answers 500 leaving a partial write: the query
row persists with only part of its tag set. -/
theorem c9_no_atomicity_partial_write :
    (d1Create ⟨[], []⟩ 7 1 0 (some "t") (some "x")
        (some [" SQL ", "sql", "", "Perf"])).1.status = 500 ∧
    (d1Create ⟨[], []⟩ 7 1 0 (some "t") (some "x")
        (some [" SQL ", "sql", "", "Perf"])).2
      ≠ (⟨[], []⟩ : D1State) ∧
    (d1Create ⟨[], []⟩ 7 1 0 (some "t") (some "x")
        (some [" SQL ", "sql", "", "Perf"])).2.queries
      = [⟨1, 7, "t", "x", false, none, 0⟩] ∧
    (d1Create ⟨[], []⟩ 7 1 0 (some "t") (some "x")
        (some [" SQL ", "sql", "", "Perf"])).2.query_tags = [(1, "sql")] ∧
    (d1Update ⟨[⟨1, 7, "t", "x", false, none, 0⟩], [(1, "old")]⟩ 7 1
        (some "t2") (some "x2") (some ["a", "A"])).1.status = 500 ∧
    (d1Update ⟨[⟨1, 7, "t", "x", false, none, 0⟩], [(1, "old")]⟩ 7 1
        (some "t2") (some "x2") (some ["a", "A"])).2
      = ⟨[⟨1, 7, "t2", "x2", false, none, 0⟩], [(1, "a")]⟩ := by
  decide

/-- **C10.** Every item of the D1 owner listing carries a `tags` value that
is a JSON array — never null — and a query with no tag rows gets the empty
array; the D1 public view likewise always carries an array `tags` field. -/
theorem c10_tags_always_list (dst : D1State) (uid : Nat) (sid : String) :
    (∀ item ∈ d1ListQueries dst uid,
       (∃ l, item.tags = JVal.arr l) ∧ item.tags ≠ JVal.null ∧
       ((∀ p ∈ dst.query_tags, p.1 ≠ item.item_id) → item.tags = JVal.arr [])) ∧
    ((d1GetPublic dst sid).status = 200 →
       ∃ ti te l cr, (d1GetPublic dst sid).body
         = JVal.obj [("title", ti), ("text", te), ("tags", JVal.arr l),
                     ("createdAt", cr)]) := by
  constructor
  · intro item hitem
    rcases List.mem_map.1 hitem with ⟨q, _, rfl⟩
    obtain ⟨l, hl⟩ := jsTagsOfConcat_isArr (groupConcatTags dst q.id)
    refine ⟨⟨l, hl⟩, by simp [hl], ?_⟩
    intro hnone
    have : groupConcatTags dst q.id = none := groupConcatTags_none hnone
    simp [this, jsTagsOfConcat]
  · intro h200
    rcases hg : dst.queries.find? (fun q => q.share_id == some sid && q.is_public)
      with _ | q
    · simp [d1GetPublic, hg, msgResponse] at h200
    · obtain ⟨l, hl⟩ := jsTagsOfConcat_isArr (groupConcatTags dst q.id)
      exact ⟨.str q.title, .str q.text, l, .num q.created_at,
        by simp [d1GetPublic, hg, hl]⟩

/-- Witness for C10: the listing of a concrete one-query store with no tag
rows yields `tags = []`. -/
theorem c10_tags_always_list_witness :
    (⟨1, 7, "t", "x", false, none, 0, JVal.arr []⟩ : D1ListItem).tags
      = JVal.arr [] := by
  have h := (c10_tags_always_list ⟨[⟨1, 7, "t", "x", false, none, 0⟩], []⟩ 7 "s").1
    ⟨1, 7, "t", "x", false, none, 0, JVal.arr []⟩ (List.Mem.head _)
  exact h.2.2 (fun p hp => absurd hp (List.not_mem_nil p))

/-- **C1.** Owner isolation: a query owned by `A` never appears in user `B`'s
listing, and `update`/`delete`/`share` called by `B` against `A`'s query id
produce exactly the same 404 "not found" outcome — response and state — as
against an id that matches no query at all, in both the Express+Mongo
handlers and the D1 delete handler. -/
theorem c1_owner_isolation (st : MStore) (A B : Nat) (q : MQuery)
    (body : UpdateBody) (tok : String) (qid0 : Nat)
    (dst : D1State) (dq : D1Query) (did0 : Nat)
    (hAB : B ≠ A)
    (hnod : (mIds st).Nodup) (hq : q ∈ st) (hqA : q.user = A)
    (h0 : ∀ r ∈ st, r.qid ≠ qid0)
    (hdnod : (dst.queries.map (fun r => r.id)).Nodup)
    (hdq : dq ∈ dst.queries) (hdqA : dq.user_id = A)
    (hd0 : ∀ r ∈ dst.queries, r.id ≠ did0) :
    q ∉ listQueries st B ∧
    updateQuery st B q.qid body = updateQuery st B qid0 body ∧
    deleteQuery st B q.qid = deleteQuery st B qid0 ∧
    shareQuery st B q.qid tok = shareQuery st B qid0 tok ∧
    (jsFalsy body.title = false → jsFalsy body.text = false →
       updateQuery st B q.qid body
         = (msgResponse 404 "Query not found or user not authorized.", st)) ∧
    deleteQuery st B q.qid
      = (msgResponse 404 "Query not found or user not authorized.", st) ∧
    shareQuery st B q.qid tok
      = (msgResponse 404 "Query not found or user not authorized.", st) ∧
    d1Delete dst B dq.id
      = (msgResponse 404 "Query not found or unauthorized.", dst) ∧
    d1Delete dst B dq.id = d1Delete dst B did0 := by
  have hq_none : mFindOne st q.qid B = none :=
    mFindOne_other_owner hnod hq (hqA ▸ hAB)
  have h0_none : mFindOne st qid0 B = none := mFindOne_fresh h0
  have hd_hit : dst.queries.filter (fun r => r.id == dq.id && r.user_id == B) = [] :=
    d1_filter_other_owner hdnod hdq (hdqA ▸ hAB)
  have hd0_hit : dst.queries.filter (fun r => r.id == did0 && r.user_id == B) = [] :=
    d1_filter_fresh hd0
  refine ⟨?_, ?_, ?_, ?_, ?_, ?_, ?_, ?_, ?_⟩
  · intro hmem
    rw [listQueries, mem_sortDescBy] at hmem
    have hB := (List.mem_filter.1 hmem).2
    rw [beq_iff_eq] at hB
    exact hAB (hB ▸ hqA ▸ rfl)
  · by_cases hf : (jsFalsy body.title || jsFalsy body.text) = true
    · simp [updateQuery, hf]
    · simp [updateQuery, hf, hq_none, h0_none]
  · simp [deleteQuery, hq_none, h0_none]
  · simp [shareQuery, hq_none, h0_none]
  · intro ht hx
    simp [updateQuery, ht, hx, hq_none]
  · simp [deleteQuery, hq_none]
  · simp [shareQuery, hq_none]
  · simp [d1Delete, hd_hit]
  · simp [d1Delete, hd_hit, hd0_hit]

/-- Witness for C1: concrete two-user stores. -/
theorem c1_owner_isolation_witness :
    deleteQuery [⟨1, 10, "t", "x", [], false, none, 0⟩] 20 1
      = (msgResponse 404 "Query not found or user not authorized.",
         [⟨1, 10, "t", "x", [], false, none, 0⟩]) :=
  (c1_owner_isolation [⟨1, 10, "t", "x", [], false, none, 0⟩] 10 20
    ⟨1, 10, "t", "x", [], false, none, 0⟩
    ⟨some "t2", some "x2", none, none, none, none, none⟩ "tok" 99
    ⟨[⟨1, 10, "t", "x", false, none, 0⟩], []⟩ ⟨1, 10, "t", "x", false, none, 0⟩ 99
    (by decide) (by decide) (by decide) (by decide) (by decide)
    (by decide) (by decide) (by decide) (by decide)).2.2.2.2.2.1

/-- **C2.** Sharing is idempotent in the Express+Mongo handler: on an
already-public query `share` answers the stored `shareId` and leaves the
store untouched; and for any owned query, two consecutive `share` calls
return the same response, the second performs no write, and the query is
public after the first call and stays public. -/
theorem c2_share_idempotent (st : MStore) (owner : Nat) (q : MQuery)
    (tok1 tok2 s : String)
    (hnod : (mIds st).Nodup) (hq : q ∈ st) (howner : q.user = owner)
    (htok1 : tok1 ≠ "") :
    (q.isPublic = true → q.shareId = some s → s ≠ "" →
       shareQuery st owner q.qid tok1
         = (⟨200, .obj [("shareId", .str s)]⟩, st)) ∧
    (shareQuery (shareQuery st owner q.qid tok1).2 owner q.qid tok2).1
       = (shareQuery st owner q.qid tok1).1 ∧
    (shareQuery (shareQuery st owner q.qid tok1).2 owner q.qid tok2).2
       = (shareQuery st owner q.qid tok1).2 ∧
    (∃ q1, mFindOne (shareQuery st owner q.qid tok1).2 q.qid owner = some q1 ∧
       q1.isPublic = true) ∧
    (∃ q2, mFindOne (shareQuery (shareQuery st owner q.qid tok1).2
        owner q.qid tok2).2 q.qid owner = some q2 ∧ q2.isPublic = true) := by
  have hfind : mFindOne st q.qid owner = some q := howner ▸ mFindOne_self hnod hq
  by_cases hc : (q.isPublic && optStrTruthy q.shareId) = true
  · have hpub : q.isPublic = true ∧ optStrTruthy q.shareId = true := by
      simpa [Bool.and_eq_true] using hc
    have hr1 : ∀ t : String, shareQuery st owner q.qid t
        = (⟨200, .obj [("shareId", .str (q.shareId.getD ""))]⟩, st) := by
      intro t
      simp [shareQuery, hfind, hc]
    have hr2 : shareQuery (shareQuery st owner q.qid tok1).2 owner q.qid tok2
        = (⟨200, .obj [("shareId", .str (q.shareId.getD ""))]⟩, st) := by
      rw [hr1 tok1]
      exact hr1 tok2
    refine ⟨?_, ?_, ?_, ?_, ?_⟩
    · intro _ hsid _
      rw [hr1 tok1, hsid]
      rfl
    · rw [hr2, hr1 tok1]
    · rw [hr2, hr1 tok1]
    · rw [hr1 tok1]
      exact ⟨q, hfind, hpub.1⟩
    · rw [hr2]
      exact ⟨q, hfind, hpub.1⟩
  · have hr1 : shareQuery st owner q.qid tok1
        = (⟨200, .obj [("shareId", .str tok1)]⟩,
           updateFirst (fun r => r.qid == q.qid && r.user == owner)
             (fun r => { r with shareId := some tok1, isPublic := true }) st) := by
      simp [shareQuery, hfind, hc]
    have hfind1 : mFindOne (shareQuery st owner q.qid tok1).2 q.qid owner
        = some { q with shareId := some tok1, isPublic := true } := by
      rw [hr1, mFindOne,
        find?_updateFirst (fun r => r.qid == q.qid && r.user == owner)
          (fun r => { r with shareId := some tok1, isPublic := true })
          (fun x => rfl) st]
      rw [mFindOne] at hfind
      rw [hfind]
      rfl
    have hbne : (tok1 != "") = true := by simp [htok1]
    have hr2 : shareQuery (shareQuery st owner q.qid tok1).2 owner q.qid tok2
        = (⟨200, .obj [("shareId", .str tok1)]⟩,
           (shareQuery st owner q.qid tok1).2) := by
      generalize hX : (shareQuery st owner q.qid tok1).2 = X at hfind1
      simp [shareQuery, hfind1, optStrTruthy, hbne]
    refine ⟨?_, ?_, ?_, ?_, ?_⟩
    · intro hpub hsid hs
      exact absurd (by rw [hpub, hsid]; simp [optStrTruthy, hs]) hc
    · rw [hr2, hr1]
    · rw [hr2]
    · exact ⟨_, hfind1, rfl⟩
    · rw [hr2]
      exact ⟨_, hfind1, rfl⟩

/-- Witness for C2: sharing a concrete private query twice yields the same
response both times. -/
theorem c2_share_idempotent_witness :
    (shareQuery (shareQuery [⟨1, 10, "t", "x", [], false, none, 0⟩] 10 1 "abc").2
       10 1 "def").1
      = (shareQuery [⟨1, 10, "t", "x", [], false, none, 0⟩] 10 1 "abc").1 :=
  (c2_share_idempotent [⟨1, 10, "t", "x", [], false, none, 0⟩] 10
    ⟨1, 10, "t", "x", [], false, none, 0⟩ "abc" "def" "s"
    (by decide) (by decide) rfl (by decide)).2.1

/-- **C7.** A successful update in the Express+Mongo handler rewrites only
`title`, `text` and `tags` of the addressed query: `user` (owner),
`createdAt`, `isPublic` and `shareId` are afterwards unchanged, for every
request body — including bodies that supply owner/share/timestamp values —
and every other stored query is untouched. -/
theorem c7_update_frame (st : MStore) (owner : Nat) (q : MQuery)
    (body : UpdateBody)
    (hnod : (mIds st).Nodup) (hq : q ∈ st) (howner : q.user = owner)
    (ht : jsFalsy body.title = false) (hx : jsFalsy body.text = false) :
    (updateQuery st owner q.qid body).1.status = 200 ∧
    mFindOne (updateQuery st owner q.qid body).2 q.qid owner
      = some (applyUpdate body q) ∧
    (∃ q2, mFindOne (updateQuery st owner q.qid body).2 q.qid owner = some q2 ∧
       q2.user = q.user ∧ q2.createdAt = q.createdAt ∧
       q2.isPublic = q.isPublic ∧ q2.shareId = q.shareId ∧
       q2.title = body.title.getD "" ∧ q2.text = body.text.getD "" ∧
       q2.tags = processTags body.tags) ∧
    (∀ r ∈ st, r.qid ≠ q.qid → r ∈ (updateQuery st owner q.qid body).2) := by
  obtain ⟨hr, hfind2⟩ := updateQuery_success body hnod hq howner ht hx
  refine ⟨by rw [hr], hfind2,
    ⟨applyUpdate body q, hfind2, rfl, rfl, rfl, rfl, rfl, rfl, rfl⟩, ?_⟩
  intro r hr2 hne
  rw [hr]
  apply mem_updateFirst_of_neg hr2
  have hbe : (r.qid == q.qid) = false := beq_eq_false_iff_ne.2 hne
  simp [hbe]

/-- Witness for C7: a concrete update that tries to overwrite owner, share
state and timestamp changes only title, text and tags. -/
theorem c7_update_frame_witness :
    mFindOne (updateQuery [⟨1, 10, "t", "x", ["a"], true, some "s1", 5⟩] 10 1
      ⟨some "t2", some "x2", some ["B"], some 99, some 99, some false,
        some "zz"⟩).2 1 10
      = some ⟨1, 10, "t2", "x2", ["b"], true, some "s1", 5⟩ :=
  (c7_update_frame [⟨1, 10, "t", "x", ["a"], true, some "s1", 5⟩] 10
    ⟨1, 10, "t", "x", ["a"], true, some "s1", 5⟩
    ⟨some "t2", some "x2", some ["B"], some 99, some 99, some false, some "zz"⟩
    (by decide) (by decide) rfl rfl rfl).2.1

/-- Counterexample for C5: on the specification's own example input
`[" SQL ", "sql", "", "Perf"]` the Express+Mongo create handler stores the
list `["sql", "sql", "perf"]` — trimmed, lowercased, empties dropped, but
with the duplicate kept — not the deduplicated set `{"sql", "perf"}`. -/
theorem c5_tags_counterexample :
    normalizeTags [" SQL ", "sql", "", "Perf"] = ["sql", "sql", "perf"] ∧
    ((createQuery [] 10 1 0 (some "t") (some "x")
        (some [" SQL ", "sql", "", "Perf"])).2.map (fun q => q.tags))
      = [["sql", "sql", "perf"]] ∧
    ¬ (["sql", "sql", "perf"] : List String).Nodup ∧
    (["sql", "sql", "perf"] : List String) ≠ ["sql", "perf"] := by
  decide

/-- **C5 (amended).** The stored tag collection equals the input with each
entry trimmed and lowercased and empty entries dropped, duplicates and order
preserved (no deduplication); the example input [" SQL ", "sql", "", "Perf"]
yields the stored list ["sql", "sql", "perf"]. Holds for both create and
update in the Express+Mongo handler. -/
theorem c5_tags_normalized_no_dedupe (st : MStore) (uid newId now : Nat)
    (title text : Option String) (ts : List String)
    (ht : jsFalsy title = false) (hx : jsFalsy text = false) :
    (∃ q, (createQuery st uid newId now title text (some ts)).2 = st ++ [q] ∧
       q.tags = specNormalizeTags ts) ∧
    (∀ (owner : Nat) (q : MQuery) (body : UpdateBody),
       (mIds st).Nodup → q ∈ st → q.user = owner →
       jsFalsy body.title = false → jsFalsy body.text = false →
       body.tags = some ts →
       ∃ q2, mFindOne (updateQuery st owner q.qid body).2 q.qid owner
           = some q2 ∧ q2.tags = specNormalizeTags ts) ∧
    specNormalizeTags [" SQL ", "sql", "", "Perf"] = ["sql", "sql", "perf"] := by
  have hf : (jsFalsy title || jsFalsy text) = false := by
    rw [ht, hx]
    rfl
  refine ⟨?_, ?_, by decide⟩
  · refine ⟨⟨newId, uid, title.getD "", text.getD "", specNormalizeTags ts,
      false, none, now⟩, ?_, rfl⟩
    simp [createQuery, hf, processTags, normalizeTags, specNormalizeTags]
  · intro owner q body hnod hq howner hbt hbx htags
    obtain ⟨-, h2⟩ := updateQuery_success body hnod hq howner hbt hbx
    refine ⟨applyUpdate body q, h2, ?_⟩
    show processTags body.tags = specNormalizeTags ts
    simp only [htags]
    rfl

/-- Witness for C5 (amended): creating a query with the example tag input
stores the normalized, non-deduplicated list. -/
theorem c5_tags_normalized_witness :
    ∃ q, (createQuery [] 10 1 0 (some "t") (some "x")
        (some [" SQL ", "sql", "", "Perf"])).2 = [] ++ [q] ∧
      q.tags = specNormalizeTags [" SQL ", "sql", "", "Perf"] :=
  (c5_tags_normalized_no_dedupe [] 10 1 0 (some "t") (some "x")
    [" SQL ", "sql", "", "Perf"] rfl rfl).1

/-- Counterexample for C6: a whitespace-only title is accepted by the
Express+Mongo create handler — the response is 201 and the query is stored
with title `" "`, whose trim is empty — contradicting "empty after trimming
is rejected". -/
theorem c6_counterexample :
    (createQuery [] 10 1 0 (some " ") (some "x") none).1.status = 201 ∧
    ((createQuery [] 10 1 0 (some " ") (some "x") none).2.map
        (fun q => q.title)) = [" "] ∧
    jsTrim " " = "" := by
  decide

/-- **C6 (amended).** create fails with 400 (storing nothing) iff `title` or
`text` is missing or the empty string — JavaScript falsiness, with no
trimming applied; whitespace-only values are accepted. -/
theorem c6_create_validation (st : MStore) (uid newId now : Nat)
    (title text : Option String) (tags : Option (List String)) :
    ((createQuery st uid newId now title text tags).1.status = 400
       ↔ (jsFalsy title = true ∨ jsFalsy text = true)) ∧
    ((jsFalsy title = true ∨ jsFalsy text = true) →
       createQuery st uid newId now title text tags
         = (msgResponse 400 "Title and text are required.", st)) ∧
    ((createQuery st uid newId now title text tags).1.status = 400 →
       (createQuery st uid newId now title text tags).2 = st) := by
  by_cases hf : (jsFalsy title || jsFalsy text) = true
  · have hor : jsFalsy title = true ∨ jsFalsy text = true := by
      simpa [Bool.or_eq_true] using hf
    have hr : createQuery st uid newId now title text tags
        = (msgResponse 400 "Title and text are required.", st) := by
      simp [createQuery, hf]
    exact ⟨by rw [hr]; simp [msgResponse, hor], fun _ => hr, fun _ => by rw [hr]⟩
  · have hor : ¬ (jsFalsy title = true ∨ jsFalsy text = true) := by
      simpa [Bool.or_eq_true] using hf
    have hr : (createQuery st uid newId now title text tags).1.status = 201 := by
      simp [createQuery, hf]
    refine ⟨?_, fun h => absurd h hor, ?_⟩
    · rw [hr]
      simp [hor]
    · rw [hr]
      intro h
      exact absurd h (by decide)

/-- Witness for C6 (amended): a request missing the title is rejected with
400 and the store is unchanged. -/
theorem c6_create_validation_witness :
    createQuery [] 10 1 0 none (some "x") none
      = (msgResponse 400 "Title and text are required.", []) :=
  (c6_create_validation [] 10 1 0 none (some "x") none).2.1 (Or.inl rfl)

/-- **C8.** Failed logins are uniform: whenever the supplied username does
not match a stored user, or matches one whose password comparison fails, the
Express+Mongo login handler answers with the identical
`401 {message: "Invalid credentials."}` response — so the two failure causes
are observably indistinguishable — for every password comparator and token
issuer. -/
theorem c8_login_uniform_401
    (compare : String → String → Bool) (issueToken : MUser → String)
    (users : List MUser) (username password : Option String)
    (hu : jsFalsy username = false) (hp : jsFalsy password = false)
    (hfail : findUser users (username.getD "") = none ∨
      ∃ u, findUser users (username.getD "") = some u ∧
        compare (password.getD "") u.passwordHash = false) :
    login compare issueToken users username password
      = msgResponse 401 "Invalid credentials." := by
  have hf : (jsFalsy username || jsFalsy password) = false := by
    rw [hu, hp]
    rfl
  rcases hfail with hnone | ⟨u, hsome, hcmp⟩
  · simp [login, hf, hnone]
  · simp [login, hf, hsome, hcmp]

/-- Witness for C8: with a concrete comparator and user table, an unknown
username yields the same 401 response as a wrong password for an existing
user. -/
theorem c8_login_uniform_401_witness :
    login (fun p h => p == h) (fun _ => "jwt") [⟨1, "alice", "pw"⟩]
        (some "bob") (some "pw")
      = msgResponse 401 "Invalid credentials." ∧
    login (fun p h => p == h) (fun _ => "jwt") [⟨1, "alice", "pw"⟩]
        (some "alice") (some "wrong")
      = msgResponse 401 "Invalid credentials." :=
  ⟨c8_login_uniform_401 (fun p h => p == h) (fun _ => "jwt")
      [⟨1, "alice", "pw"⟩] (some "bob") (some "pw") rfl rfl
      (Or.inl (by decide)),
   c8_login_uniform_401 (fun p h => p == h) (fun _ => "jwt")
      [⟨1, "alice", "pw"⟩] (some "alice") (some "wrong") rfl rfl
      (Or.inr ⟨⟨1, "alice", "pw"⟩, by decide, by decide⟩)⟩
